import Mathlib

/-
Verification of the inpixly room/session coordination engine.

Shallow embedding conventions:
- Rust `String`/`&str` values are modelled as `List Char` (abbrev `Str`).
  Every string accepted by the validators below is pure ASCII, where byte
  length and char length coincide, so `List.length` faithfully models
  Rust's `len()` on all accepted inputs (both models reject the same
  non-ASCII inputs, via the length check or the charset check).
- `chrono::Utc::now()` is modelled by an explicit `now : Nat` parameter.
- `Uuid::new_v4()` (fresh room ids, owner tokens, member tokens) is
  modelled by explicit parameters supplying the fresh value.
- The `tokio::sync::broadcast` channel of a room is modelled by an
  append-only publication log `broadcasts : List RoomEvent`; `send`
  appends one event, so the log records publication order.
- The `CancellationToken`/`DropGuard` acknowledgment machinery carried by
  `RoomEvent::Kick` is a concurrency handle with no data content; it is
  modelled by `Unit` (only the `Some`/`None` distinction of
  `force_logout_member` is observable here).
- `BTreeMap<MemberToken, Member>` (and the registry `HashMap`) are
  modelled as association lists with map semantics (`mapLookup`,
  `mapInsert` replacing an existing key, `mapUpdate` updating in place).
-/

deriving instance DecidableEq for Except

namespace Inpixly

abbrev Str := List Char

/-! ## Character-level validation primitives (src/shared/src/lib.rs) -/

/-- Rust `char::is_whitespace`: the Unicode White_Space code points. -/
def rustIsWhitespace (c : Char) : Bool :=
  c.toNat = 9 || c.toNat = 10 || c.toNat = 11 || c.toNat = 12 || c.toNat = 13 ||
  c.toNat = 32 || c.toNat = 0x85 || c.toNat = 0xA0 || c.toNat = 0x1680 ||
  (0x2000 ≤ c.toNat && c.toNat ≤ 0x200A) || c.toNat = 0x2028 || c.toNat = 0x2029 ||
  c.toNat = 0x202F || c.toNat = 0x205F || c.toNat = 0x3000

/-- Rust `str::trim`: drop whitespace from both ends. -/
def rustTrim (s : Str) : Str :=
  (((s.dropWhile rustIsWhitespace).reverse.dropWhile rustIsWhitespace)).reverse

/-- Rust `char::is_ascii_alphanumeric`. -/
def isAsciiAlphanumeric (c : Char) : Bool :=
  (48 ≤ c.toNat && c.toNat ≤ 57) ||
  (65 ≤ c.toNat && c.toNat ≤ 90) ||
  (97 ≤ c.toNat && c.toNat ≤ 122)

/-- Rust `char::is_ascii_hexdigit`. -/
def isAsciiHexDigit (c : Char) : Bool :=
  (48 ≤ c.toNat && c.toNat ≤ 57) ||
  (97 ≤ c.toNat && c.toNat ≤ 102) ||
  (65 ≤ c.toNat && c.toNat ≤ 70)

/-- `Username::from_str` (src/shared/src/lib.rs:279-302): trim, require
2..=32 chars, ASCII alphanumeric only. The distinct error messages of the
source are collapsed to `none`. -/
def usernameFromStr (s : Str) : Option Str :=
  let trimmed := rustTrim s
  if trimmed.length < 2 then none
  else if trimmed.length > 32 then none
  else if trimmed.all isAsciiAlphanumeric then some trimmed
  else none

/-- Decimal representation, structurally recursive on a fuel argument so
that it reduces in the kernel; `natRepr` supplies fuel `n`, which always
suffices since the argument shrinks by a factor of ten each step. -/
def natReprAux : Nat → Nat → Str
  | 0, _ => []
  | fuel + 1, n =>
    if n < 10 then [Char.ofNat (48 + n)]
    else natReprAux fuel (n / 10) ++ [Char.ofNat (48 + n % 10)]

/-- Decimal representation of a natural number, as produced by Rust
`format!` for the suffix counter. -/
def natRepr (n : Nat) : Str :=
  natReprAux n n

/-- Rust `str::split('-')` on the trimmed candidate room id. -/
def splitHyphen : Str → List Str
  | [] => [[]]
  | c :: rest =>
    if c = '-' then [] :: splitHyphen rest
    else
      match splitHyphen rest with
      | [] => [[c]]
      | p :: ps => (c :: p) :: ps

/-- The per-group checks of `RoomId::from_str`: zip the split parts with
the expected lengths `[8, 4, 4, 4, 12]`, requiring each part to have the
expected length and to consist of ASCII hex digits. -/
def checkGroups : List Str → List Nat → Bool
  | [], [] => true
  | p :: ps, n :: ns =>
    p.length = n && p.all isAsciiHexDigit && checkGroups ps ns
  | _, _ => false

/-- `RoomId::from_str` (src/shared/src/lib.rs:124-152): trim, require 36
chars, five hyphen-separated groups of lengths 8-4-4-4-12, all ASCII hex
digits; on success the trimmed input is stored verbatim. -/
def roomIdFromStr (s : Str) : Option Str :=
  let trimmed := rustTrim s
  if trimmed.length ≠ 36 then none
  else
    let parts := splitHyphen trimmed
    if parts.length ≠ 5 then none
    else if checkGroups parts [8, 4, 4, 4, 12] then some trimmed
    else none

/-! ## Message and event types (src/shared/src/lib.rs, src/server/src/room.rs) -/

inductive ErrorKind where
  | TokenNotFound
  | TokenAlreadyInUse
  | RoomNotFound
  | InvalidUsername (message : Str)
  | UsernameTaken
  | PasswordRequired
  | IncorrectPassword
  | JoinTimeout
  | TooManyAttempts
  | Other (message : Str)
deriving DecidableEq

inductive SignalingPayload where
  | Offer (sdp : Str)
  | Answer (sdp : Str)
  | IceCandidate (candidate : Str)
deriving DecidableEq

structure MemberInfo where
  username : Str
  is_online : Bool
deriving DecidableEq

/-- The `WsMessage` enum; the source fields `from` and `to` are Lean
keywords and are renamed `sender` and `dest`. -/
inductive WsMessage where
  | Leave
  | Offer (dest : Str) (sdp : Str)
  | Answer (dest : Str) (sdp : Str)
  | IceCandidate (dest : Str) (candidate : Str)
  | ChatMessage (message : Str)
  | JoinedAs (username : Str) (token : Str) (is_owner : Bool)
  | MemberJoined (username : Str)
  | MemberLeft (username : Str)
  | MemberList (members : List MemberInfo)
  | SignalingMessage (sender : Str) (payload : SignalingPayload)
  | Chat (sender : Str) (message : Str)
  | Error (kind : ErrorKind)
  | ForceDisconnect
deriving DecidableEq

/-- `RoomEvent` (src/server/src/room.rs:198-205); the ack slot of `Kick`
carries no data in the model. -/
inductive RoomEvent where
  | Broadcast (msg : WsMessage)
  | Kick (token : Str)
deriving DecidableEq

/-! ## Association-list maps (model of BTreeMap / HashMap) -/

def mapLookup {β : Type} : List (Str × β) → Str → Option β
  | [], _ => none
  | (k', v) :: rest, k => if k' = k then some v else mapLookup rest k

def mapInsert {β : Type} : List (Str × β) → Str → β → List (Str × β)
  | [], k, v => [(k, v)]
  | (k', v') :: rest, k, v =>
    if k' = k then (k, v) :: rest else (k', v') :: mapInsert rest k v

def mapUpdate {β : Type} : List (Str × β) → Str → (β → β) → List (Str × β)
  | [], _, _ => []
  | (k', v) :: rest, k, f =>
    if k' = k then (k', f v) :: rest else (k', v) :: mapUpdate rest k f

/-! ## Member and Room (src/server/src/room.rs) -/

structure Member where
  username : Str
  token : Str
  last_seen : Nat
  is_online : Bool
deriving DecidableEq

/-- `Member::new`; the random token is an explicit parameter. -/
def Member.new (username : Str) (token : Str) (is_online : Bool) (now : Nat) :
    Member :=
  { username := username, token := token, last_seen := now, is_online := is_online }

def Member.set_online (m : Member) (online : Bool) (now : Nat) : Member :=
  { m with is_online := online, last_seen := now }

def Member.to_info (m : Member) : MemberInfo :=
  { username := m.username, is_online := m.is_online }

structure Room where
  id : Str
  owner_token : Str
  password : Option Str
  members : List (Str × Member)
  last_activity : Nat
  broadcasts : List RoomEvent
deriving DecidableEq

/-- `Room::new`; the random id and owner token are explicit parameters,
the broadcast channel starts with an empty publication log. -/
def Room.new (password : Option Str) (id : Str) (owner_token : Str) (now : Nat) :
    Room :=
  { id := id, owner_token := owner_token, password := password,
    members := [], last_activity := now, broadcasts := [] }

def Room.has_password (r : Room) : Bool :=
  r.password.isSome

/-- `Room::verify_password` (src/server/src/room.rs:38-52). The source
compares the two byte strings with `subtle::ConstantTimeEq::ct_eq`, whose
result (as a Bool) is exactly byte-string equality. -/
def Room.verify_password (r : Room) (password : Option Str) :
    Except ErrorKind Unit :=
  match r.password, password with
  | none, _ => .ok ()
  | some _, none => .error .PasswordRequired
  | some room_pass, some provided_pass =>
    if room_pass = provided_pass then .ok () else .error .IncorrectPassword

def Room.touch (r : Room) (now : Nat) : Room :=
  { r with last_activity := now }

def Room.is_username_taken (r : Room) (username : Str) : Bool :=
  r.members.any (fun m => m.2.username = username)

/-- The body of the `for counter in 1..100` loop of
`Room::generate_unique_username`: on a candidate that fails
`Username::from_str` the loop breaks (overall result `none`); a taken
candidate moves to the next counter; a free one is returned. -/
def tryCounters (r : Room) (base : Str) : List Nat → Option Str
  | [] => none
  | counter :: rest =>
    match usernameFromStr (base ++ natRepr counter) with
    | none => none
    | some candidate =>
      if r.is_username_taken candidate then tryCounters r base rest
      else some candidate

/-- `Room::generate_unique_username` (src/server/src/room.rs:65-79). -/
def Room.generate_unique_username (r : Room) (base_username : Str) :
    Option Str :=
  if !r.is_username_taken base_username then some base_username
  else tryCounters r base_username (List.range' 1 99)

/-- `Room::add_member` (src/server/src/room.rs:83-102); the fresh member
token is an explicit parameter. -/
def Room.add_member (r : Room) (requested_username : Str) (is_online : Bool)
    (fresh_token : Str) (now : Nat) :
    Except ErrorKind (Str × Str) × Room :=
  match r.generate_unique_username requested_username with
  | none => (.error .UsernameTaken, r)
  | some username =>
    let member := Member.new username fresh_token is_online now
    let r1 := { r with members := mapInsert r.members fresh_token member }
    let r2 := { r1 with
      broadcasts := r1.broadcasts ++
        [RoomEvent.Broadcast (WsMessage.MemberJoined username)] }
    (.ok (username, fresh_token), r2.touch now)

/-- `Room::login_member` (src/server/src/room.rs:105-121). -/
def Room.login_member (r : Room) (token : Str) (now : Nat) :
    Except ErrorKind Str × Room :=
  match mapLookup r.members token with
  | none => (.error .TokenNotFound, r)
  | some member =>
    if member.is_online then (.error .TokenAlreadyInUse, r)
    else
      let r1 := { r with
        members := mapUpdate r.members token (fun m => m.set_online true now) }
      let r2 := { r1 with
        broadcasts := r1.broadcasts ++
          [RoomEvent.Broadcast (WsMessage.MemberJoined member.username)] }
      (.ok member.username, r2.touch now)

/-- `Room::force_logout_member` (src/server/src/room.rs:123-146): only
meaningful for an online member; flips it offline, publishes the targeted
`Kick` event and then the `MemberLeft` broadcast, returns the handle. -/
def Room.force_logout_member (r : Room) (token : Str) (now : Nat) :
    Option Unit × Room :=
  match mapLookup r.members token with
  | none => (none, r)
  | some member =>
    if !member.is_online then (none, r)
    else
      let r1 := { r with
        members := mapUpdate r.members token (fun m => m.set_online false now) }
      let r2 := { r1 with
        broadcasts := r1.broadcasts ++
          [RoomEvent.Kick token,
           RoomEvent.Broadcast (WsMessage.MemberLeft member.username)] }
      (some (), r2.touch now)

/-- `Room::on_disconnect` (src/server/src/room.rs:149-169). The
`DropGuard` argument of the source is a pure synchronization handle and
is omitted. Note: the source body runs for any member found by token,
online or not. -/
def Room.on_disconnect (r : Room) (token : Str) (now : Nat) : Room :=
  match mapLookup r.members token with
  | none => r
  | some member =>
    let r1 := { r with
      members := mapUpdate r.members token (fun m => m.set_online false now) }
    let r2 := { r1 with
      broadcasts := r1.broadcasts ++
        [RoomEvent.Broadcast (WsMessage.MemberLeft member.username)] }
    r2.touch now

def Room.get_member_list (r : Room) : List MemberInfo :=
  r.members.map (fun p => p.2.to_info)

def Room.is_owner (r : Room) (token : Str) : Bool :=
  r.owner_token = token

def Room.broadcast (r : Room) (msg : RoomEvent) : Room :=
  { r with broadcasts := r.broadcasts ++ [msg] }

/-! ## Registry and HTTP-facing operations (src/server/src/main.rs) -/

abbrev Registry := List (Str × Room)

structure CreateRoomResponse where
  room_id : Str
  owner_token : Str
  member_token : Str
  username : Str
deriving DecidableEq

/-- `RoomInfoResponse`; the source field `exists` is a Lean keyword and is
named `exists_b` here. -/
structure RoomInfoResponse where
  exists_b : Bool
  has_password : Bool
deriving DecidableEq

/-- `create_room` (src/server/src/main.rs:31-55): build a fresh room, add
the creator via `add_member(request.username, false)`, and insert the
room into the registry on success. -/
def create_room (rooms : Registry) (username : Str) (password : Option Str)
    (fresh_id fresh_owner_token fresh_member_token : Str) (now : Nat) :
    Except ErrorKind CreateRoomResponse × Registry :=
  let room := Room.new password fresh_id fresh_owner_token now
  let room_id := room.id
  let owner_token := room.owner_token
  match room.add_member username false fresh_member_token now with
  | (.error e, _) => (.error e, rooms)
  | (.ok (username, member_token), room) =>
    (.ok { room_id := room_id, owner_token := owner_token,
           member_token := member_token, username := username },
     mapInsert rooms room_id room)

/-- `get_room` (src/server/src/main.rs:58-73): read-only lookup; the
registry is returned unchanged (the handler takes only a read lock). -/
def get_room (rooms : Registry) (room_id : Str) :
    RoomInfoResponse × Registry :=
  match mapLookup rooms room_id with
  | some room => ({ exists_b := true, has_password := room.has_password }, rooms)
  | none => ({ exists_b := false, has_password := false }, rooms)

/-- `handle_client_message` (src/server/src/ws.rs:367-424), over the
already-deserialized message. In the source the Offer/Answer/IceCandidate
arms contain only commented-out forwarding code, so those messages have
no effect; `ChatMessage` re-broadcasts a `Chat` event attributed to the
sending session's username. -/
def handle_client_message (msg : WsMessage) (room_id : Str) (username : Str)
    (rooms : Registry) : Registry :=
  match msg with
  | .Offer _ _ => rooms
  | .Answer _ _ => rooms
  | .IceCandidate _ _ => rooms
  | .ChatMessage message =>
    match mapLookup rooms room_id with
    | some _ =>
      mapUpdate rooms room_id
        (fun room => room.broadcast (.Broadcast (.Chat username message)))
    | none => rooms
  | .Leave => rooms
  | _ => rooms

/-! ## Spec-side definitions (for refinement-style claims) -/

/-- The password decision table as the spec words it: a pure function of
the pair (room_password, candidate). -/
def verifySpec (room_password candidate : Option Str) : Except ErrorKind Unit :=
  match room_password, candidate with
  | none, _ => .ok ()
  | some _, none => .error .PasswordRequired
  | some p, some c => if p = c then .ok () else .error .IncorrectPassword

/-- The suffix search as the spec words it: try the candidates in order,
skipping any candidate that fails the username rules, and return the
first free valid one. -/
def skipSearch (r : Room) (base : Str) : List Nat → Option Str
  | [] => none
  | counter :: rest =>
    match usernameFromStr (base ++ natRepr counter) with
    | none => skipSearch r base rest
    | some candidate =>
      if r.is_username_taken candidate then skipSearch r base rest
      else some candidate

/-- Rejoin the fragments produced by `splitHyphen`, interposing a hyphen
between consecutive fragments (the inverse of the split). -/
def joinParts : List Str → Str
  | [] => []
  | [p] => p
  | p :: ps => p ++ '-' :: joinParts ps

/-- The spec's shape of a canonical room id: a hyphenated hex string
grouped 8-4-4-4-12 (hex letters of either case). -/
def uuidShaped (t : Str) : Prop :=
  ∃ g1 g2 g3 g4 g5 : Str,
    t = g1 ++ '-' :: (g2 ++ '-' :: (g3 ++ '-' :: (g4 ++ '-' :: g5))) ∧
    g1.length = 8 ∧ g2.length = 4 ∧ g3.length = 4 ∧ g4.length = 4 ∧
    g5.length = 12 ∧
    ∀ c ∈ g1 ++ g2 ++ g3 ++ g4 ++ g5, isAsciiHexDigit c = true

/-! ## Concrete sample states for witnesses and counterexamples -/

def aliceU : Str := "alice".toList

def ridC3 : Str := "rid0".toList

def otC3 : Str := "ownerTok".toList

def mtC3 : Str := "memberTok".toList

def tok1 : Str := "tokBob".toList

def memBob : Member :=
  { username := "bob".toList, token := tok1, last_seen := 0, is_online := true }

def roomC1 : Room :=
  { id := "r1".toList, owner_token := "o1".toList, password := none,
    members := [(tok1, memBob)], last_activity := 0, broadcasts := [] }

def tokC4 : Str := "tokCarol".toList

def memCarol : Member :=
  { username := "carol".toList, token := tokC4, last_seen := 0, is_online := false }

def roomC4 : Room :=
  { id := "r4".toList, owner_token := "o4".toList, password := none,
    members := [(tokC4, memCarol)], last_activity := 0, broadcasts := [] }

def longU : Str := List.replicate 32 'a'

def tokC8 : Str := "tokLong".toList

def roomC8 : Room :=
  { id := "r8".toList, owner_token := "o8".toList, password := none,
    members := [(tokC8, { username := longU, token := tokC8,
                          last_seen := 0, is_online := true })],
    last_activity := 0, broadcasts := [] }

def abU : Str := "ab".toList

def tokC6 : Str := "tokAb".toList

def roomC6 : Room :=
  { id := "r6".toList, owner_token := "o6".toList, password := none,
    members := [(tokC6, { username := abU, token := tokC6,
                          last_seen := 0, is_online := true })],
    last_activity := 0, broadcasts := [] }

def upperRid : Str := "FFFFFFFF-FFFF-FFFF-FFFF-FFFFFFFFFFFF".toList

def lowerRid : Str := "ffffffff-ffff-ffff-ffff-ffffffffffff".toList

def zeroRid : Str := "00000000-0000-0000-0000-000000000000".toList

/-! ## Association-list map lemmas -/

theorem mapLookup_insert_self {β : Type} (m : List (Str × β)) (k : Str) (v : β) :
    mapLookup (mapInsert m k v) k = some v := by
  induction m with
  | nil => simp [mapInsert, mapLookup]
  | cons p rest ih =>
    obtain ⟨k', v'⟩ := p
    by_cases h : k' = k
    · simp [mapInsert, mapLookup, h]
    · simp [mapInsert, mapLookup, h, ih]

theorem mapLookup_update_self {β : Type} (m : List (Str × β)) (k : Str)
    (f : β → β) :
    mapLookup (mapUpdate m k f) k = (mapLookup m k).map f := by
  induction m with
  | nil => simp [mapUpdate, mapLookup]
  | cons p rest ih =>
    obtain ⟨k', v⟩ := p
    by_cases h : k' = k
    · simp [mapUpdate, mapLookup, h]
    · simp [mapUpdate, mapLookup, h, ih]

theorem mapLookup_update_ne {β : Type} (m : List (Str × β)) (k t : Str)
    (f : β → β) (h : t ≠ k) :
    mapLookup (mapUpdate m k f) t = mapLookup m t := by
  induction m with
  | nil => simp [mapUpdate, mapLookup]
  | cons p rest ih =>
    obtain ⟨k', v⟩ := p
    by_cases hk : k' = k
    · subst hk
      have hne : ¬k' = t := fun hh => h hh.symm
      simp [mapUpdate, mapLookup, hne]
    · simp [mapUpdate, mapLookup, hk, ih]

/-! ## splitHyphen lemmas (for the RoomId shape characterization) -/

theorem splitHyphen_ne_nil (s : Str) : splitHyphen s ≠ [] := by
  cases s with
  | nil => simp [splitHyphen]
  | cons c rest =>
    unfold splitHyphen
    by_cases h : c = '-'
    · simp [h]
    · simp only [if_neg h]
      cases splitHyphen rest <;> simp

theorem join_splitHyphen (s : Str) : joinParts (splitHyphen s) = s := by
  induction s with
  | nil => rfl
  | cons c rest ih =>
    unfold splitHyphen
    by_cases h : c = '-'
    · subst h
      simp only [if_pos rfl]
      obtain ⟨p, ps, hps⟩ := List.exists_cons_of_ne_nil (splitHyphen_ne_nil rest)
      rw [hps]
      rw [hps] at ih
      simpa [joinParts] using ih
    · simp only [if_neg h]
      cases hps : splitHyphen rest with
      | nil => exact absurd hps (splitHyphen_ne_nil rest)
      | cons p ps =>
        rw [hps] at ih
        cases ps with
        | nil => simpa [joinParts] using ih
        | cons q qs =>
          simp only [joinParts, List.cons_append] at ih ⊢
          simp [ih]

theorem splitHyphen_cons_group (g rest : Str) (hg : ∀ c ∈ g, c ≠ '-') :
    splitHyphen (g ++ '-' :: rest) = g :: splitHyphen rest := by
  induction g with
  | nil => simp [splitHyphen]
  | cons c g2 ih =>
    have hc : c ≠ '-' := hg c (by simp)
    have ih2 := ih (fun d hd => hg d (by simp [hd]))
    simp [splitHyphen, hc, ih2]

theorem splitHyphen_no_hyphen (g : Str) (hg : ∀ c ∈ g, c ≠ '-') :
    splitHyphen g = [g] := by
  induction g with
  | nil => rfl
  | cons c g2 ih =>
    have hc : c ≠ '-' := hg c (by simp)
    have ih2 := ih (fun d hd => hg d (by simp [hd]))
    simp [splitHyphen, hc, ih2]

theorem list_length_eq_five {α : Type} (l : List α) (h : l.length = 5) :
    ∃ a b c d e : α, l = [a, b, c, d, e] := by
  rcases l with _ | ⟨a, l⟩
  · simp at h
  rcases l with _ | ⟨b, l⟩
  · simp at h
  rcases l with _ | ⟨c, l⟩
  · simp at h
  rcases l with _ | ⟨d, l⟩
  · simp at h
  rcases l with _ | ⟨e, l⟩
  · simp at h
  rcases l with _ | ⟨f, l⟩
  · exact ⟨a, b, c, d, e, rfl⟩
  · simp at h

theorem hex_ne_hyphen {c : Char} (h : isAsciiHexDigit c = true) : c ≠ '-' := by
  intro hc
  rw [hc] at h
  exact absurd h (by decide)

/-! ## Decimal-suffix and username-validation lemmas (for C6) -/

theorem natReprAux_lt10 (fuel n : Nat) (hf : 1 ≤ fuel) (hn : n < 10) :
    natReprAux fuel n = [Char.ofNat (48 + n)] := by
  cases fuel with
  | zero => omega
  | succ f => simp [natReprAux, hn]

theorem natRepr_lt10 (n : Nat) (h1 : 1 ≤ n) (hn : n < 10) :
    natRepr n = [Char.ofNat (48 + n)] :=
  natReprAux_lt10 n n h1 hn

theorem natRepr_two_digits (n : Nat) (h10 : 10 ≤ n) (h99 : n ≤ 99) :
    natRepr n = [Char.ofNat (48 + n / 10), Char.ofNat (48 + n % 10)] := by
  obtain ⟨m, rfl⟩ : ∃ m, n = m + 1 := ⟨n - 1, by omega⟩
  show natReprAux (m + 1) (m + 1) = _
  rw [natReprAux]
  rw [if_neg (by omega)]
  rw [natReprAux_lt10 m ((m + 1) / 10) (by omega) (by omega)]
  rfl

theorem natRepr_length_le (m n : Nat) (h1 : 1 ≤ m) (hmn : m ≤ n)
    (h99 : n ≤ 99) : (natRepr m).length ≤ (natRepr n).length := by
  by_cases hn : n < 10
  · rw [natRepr_lt10 m h1 (by omega), natRepr_lt10 n (by omega) hn]
    simp
  · rw [natRepr_two_digits n (by omega) h99]
    by_cases hm : m < 10
    · rw [natRepr_lt10 m h1 hm]
      simp
    · rw [natRepr_two_digits m (by omega) (by omega)]
      simp

theorem char_ofNat_digit_toNat (k : Nat) (h : k < 10) :
    (Char.ofNat (48 + k)).toNat = 48 + k := by
  interval_cases k <;> decide

theorem natRepr_chars_digits (n : Nat) :
    ∀ c ∈ natRepr n, 48 ≤ c.toNat ∧ c.toNat ≤ 57 := by
  suffices h : ∀ fuel n : Nat, ∀ c ∈ natReprAux fuel n,
      48 ≤ c.toNat ∧ c.toNat ≤ 57 from h n n
  intro fuel
  induction fuel with
  | zero => intro n c hc; simp [natReprAux] at hc
  | succ f ih =>
    intro n c hc
    rw [natReprAux] at hc
    by_cases hn : n < 10
    · rw [if_pos hn] at hc
      simp at hc
      subst hc
      have := char_ofNat_digit_toNat n hn
      omega
    · rw [if_neg hn] at hc
      simp at hc
      rcases hc with hc | hc
      · exact ih _ c hc
      · subst hc
        have := char_ofNat_digit_toNat (n % 10) (by omega)
        omega

theorem alnum_of_digit_char {c : Char} (h48 : 48 ≤ c.toNat)
    (h57 : c.toNat ≤ 57) : isAsciiAlphanumeric c = true := by
  simp [isAsciiAlphanumeric]
  omega

theorem not_ws_of_alnum {c : Char} (h : isAsciiAlphanumeric c = true) :
    rustIsWhitespace c = false := by
  simp [isAsciiAlphanumeric] at h
  simp [rustIsWhitespace]
  omega

theorem dropWhile_eq_self_of {α : Type} (p : α → Bool) (l : List α)
    (h : ∀ c ∈ l, p c = false) : l.dropWhile p = l := by
  cases l with
  | nil => rfl
  | cons a l2 => simp [List.dropWhile_cons, h a (by simp)]

theorem rustTrim_eq_self (s : Str) (h : ∀ c ∈ s, rustIsWhitespace c = false) :
    rustTrim s = s := by
  unfold rustTrim
  rw [dropWhile_eq_self_of _ _ h,
    dropWhile_eq_self_of _ _ (fun c hc => h c (List.mem_reverse.mp hc)),
    List.reverse_reverse]

theorem usernameFromStr_some_iff (s u : Str) :
    usernameFromStr s = some u ↔
      u = rustTrim s ∧ 2 ≤ u.length ∧ u.length ≤ 32 ∧
        u.all isAsciiAlphanumeric = true := by
  simp only [usernameFromStr]
  split_ifs with h1 h2 h3
  · simp only [false_iff, reduceCtorEq]
    rintro ⟨rfl, hl, -, -⟩
    omega
  · simp only [false_iff, reduceCtorEq]
    rintro ⟨rfl, -, hl, -⟩
    omega
  · simp only [Option.some.injEq]
    constructor
    · rintro rfl
      exact ⟨rfl, by omega, by omega, h3⟩
    · rintro ⟨rfl, -, -, -⟩
      rfl
  · simp only [false_iff, reduceCtorEq]
    rintro ⟨rfl, -, -, hall⟩
    exact h3 hall

theorem candidate_parse (base : Str) (hb : usernameFromStr base = some base)
    (n : Nat) :
    usernameFromStr (base ++ natRepr n) =
      (if base.length + (natRepr n).length ≤ 32 then some (base ++ natRepr n)
       else none) := by
  obtain ⟨-, hlow, hhigh, hall⟩ := (usernameFromStr_some_iff base base).mp hb
  have hdig := natRepr_chars_digits n
  have halld : (natRepr n).all isAsciiAlphanumeric = true :=
    List.all_eq_true.mpr fun c hc =>
      alnum_of_digit_char (hdig c hc).1 (hdig c hc).2
  have hcall : (base ++ natRepr n).all isAsciiAlphanumeric = true := by
    rw [List.all_append, hall, halld]
    rfl
  have hnws : ∀ c ∈ base ++ natRepr n, rustIsWhitespace c = false := by
    intro c hc
    exact not_ws_of_alnum (List.all_eq_true.mp hcall c hc)
  have htrim := rustTrim_eq_self _ hnws
  by_cases hle : base.length + (natRepr n).length ≤ 32
  · rw [if_pos hle]
    exact (usernameFromStr_some_iff _ _).mpr
      ⟨htrim.symm, by simp [List.length_append]; omega,
       by simp [List.length_append]; omega, hcall⟩
  · rw [if_neg hle]
    cases h : usernameFromStr (base ++ natRepr n) with
    | none => rfl
    | some u =>
      obtain ⟨hu, -, hlen, -⟩ := (usernameFromStr_some_iff _ _).mp h
      rw [hu, htrim] at hlen
      simp [List.length_append] at hlen
      omega

theorem candidate_fail_mono (base : Str) (hb : usernameFromStr base = some base)
    (n m : Nat) (h1 : 1 ≤ n) (hnm : n ≤ m) (h99 : m ≤ 99)
    (hfail : usernameFromStr (base ++ natRepr n) = none) :
    usernameFromStr (base ++ natRepr m) = none := by
  rw [candidate_parse base hb n] at hfail
  rw [candidate_parse base hb m]
  split_ifs with hle
  · rw [if_pos (by
      have := natRepr_length_le n m h1 hnm h99
      omega)] at hfail
    exact absurd hfail (by simp)
  · rfl

theorem skipSearch_none_of_fail (r : Room) (base : Str) (l : List Nat)
    (h : ∀ n ∈ l, usernameFromStr (base ++ natRepr n) = none) :
    skipSearch r base l = none := by
  induction l with
  | nil => rfl
  | cons n rest ih =>
    rw [skipSearch, h n (by simp)]
    exact ih fun m hm => h m (by simp [hm])

theorem tryCounters_eq_skipSearch (r : Room) (base : Str)
    (hb : usernameFromStr base = some base) (l : List Nat)
    (hmem : ∀ n ∈ l, 1 ≤ n ∧ n ≤ 99) (hsort : l.Pairwise (· ≤ ·)) :
    tryCounters r base l = skipSearch r base l := by
  induction l with
  | nil => rfl
  | cons n rest ih =>
    have hn := hmem n (by simp)
    rw [List.pairwise_cons] at hsort
    cases hp : usernameFromStr (base ++ natRepr n) with
    | some c =>
      rw [tryCounters, skipSearch, hp]
      cases ht : r.is_username_taken c with
      | true =>
        simp only [ht, if_true]
        exact ih (fun m hm => hmem m (by simp [hm])) hsort.2
      | false =>
        simp [ht]
    | none =>
      rw [tryCounters, skipSearch, hp]
      exact (skipSearch_none_of_fail r base rest fun m hm =>
        candidate_fail_mono base hb n m hn.1 (hsort.1 m hm)
          (hmem m (by simp [hm])).2 hp).symm

theorem range'_facts (n : Nat) (h : n ∈ List.range' 1 99) : 1 ≤ n ∧ n ≤ 99 := by
  rw [List.mem_range'_1] at h
  omega

/-! ## Claim theorems -/

/-- C7: `verify_password` is a pure function of the pair
(room_password, candidate): no room password gives Ok for every candidate
(including Some); a password with an absent candidate gives
PasswordRequired; with both present it gives Ok exactly when the strings
are equal (the `ct_eq` byte comparison) and IncorrectPassword otherwise.
It takes the room immutably (`&self`), so it cannot mutate it — in the
embedding it returns no room state. -/
theorem verify_password_pure_pair (room : Room) (candidate : Option Str) :
    room.verify_password candidate = verifySpec room.password candidate := by
  unfold Room.verify_password verifySpec
  rfl

/-- C10: the room-info lookup is total and read-only: it leaves the
registry unchanged, answers exists=false/has_password=false for an absent
id (never a not-found error), and exists=true with has_password exactly
when the room's password is set. -/
theorem get_room_total_readonly (rooms : Registry) (room_id : Str) :
    (get_room rooms room_id).2 = rooms ∧
    (get_room rooms room_id).1 =
      (match mapLookup rooms room_id with
       | none => { exists_b := false, has_password := false }
       | some room => { exists_b := true, has_password := room.password.isSome }) := by
  unfold get_room
  cases mapLookup rooms room_id <;> simp [Room.has_password]

/-- C3 counterexample: a concrete successful room creation in which the
newly inserted room holds exactly one member, the creator, whose
is_online flag is false — `create_room` calls
`add_member(request.username, false)`, so the claim's "is_online flag is
true" fails. -/
theorem create_room_creator_offline_cex :
    (mapLookup (create_room [] aliceU none ridC3 otC3 mtC3 0).2 ridC3).map
        (fun room => room.members.map (fun p => (p.2.username, p.2.is_online)))
      = some [(aliceU, false)] := by decide

/-- C3 (amended): after every successful create_room(username, password),
the newly inserted room contains exactly one member — the creator — and
that member's is_online flag is false (the creator comes online later via
their first token login over the WebSocket). -/
theorem create_room_single_offline_creator (rooms : Registry)
    (username : Str) (password : Option Str) (id ot mt : Str) (now : Nat) :
    create_room rooms username password id ot mt now =
      (.ok { room_id := id, owner_token := ot, member_token := mt,
             username := username },
       mapInsert rooms id
         { id := id, owner_token := ot, password := password,
           members := [(mt, { username := username, token := mt,
                              last_seen := now, is_online := false })],
           last_activity := now,
           broadcasts := [RoomEvent.Broadcast (WsMessage.MemberJoined username)] }) := by
  rfl

/-- C2 (code evidence): every inbound Offer, Answer or IceCandidate
envelope is dropped by `handle_client_message` — the registry, and hence
every room's event stream, is left unchanged, so nothing is ever
delivered to the addressed member's session. -/
theorem signaling_envelopes_dropped (rooms : Registry)
    (room_id username dest payload_data : Str) :
    handle_client_message (.Offer dest payload_data) room_id username rooms
        = rooms ∧
    handle_client_message (.Answer dest payload_data) room_id username rooms
        = rooms ∧
    handle_client_message (.IceCandidate dest payload_data) room_id username rooms
        = rooms :=
  ⟨rfl, rfl, rfl⟩

/-- C8: when add_member fails with UsernameTaken the call returns the
room exactly as it was (no partial member, no broadcast, no activity
refresh), and repeating the identical call on the resulting state fails
the same way. -/
theorem add_member_fail_idempotent (r : Room) (u : Str) (b : Bool)
    (tok : Str) (now : Nat)
    (hfail : (r.add_member u b tok now).1 = .error .UsernameTaken) :
    r.add_member u b tok now = (.error .UsernameTaken, r) ∧
    (r.add_member u b tok now).2.add_member u b tok now
      = (.error .UsernameTaken, r) := by
  cases hgen : r.generate_unique_username u with
  | none =>
    have h1 : r.add_member u b tok now = (.error .UsernameTaken, r) := by
      unfold Room.add_member
      rw [hgen]
    exact ⟨h1, by rw [h1, h1]⟩
  | some uname =>
    exfalso
    unfold Room.add_member at hfail
    rw [hgen] at hfail
    simp at hfail

/-- C8 witness: a concrete room whose sole member holds the maximal
32-character username, so the same username is taken and every suffixed
candidate is over-long; the failing add_member leaves the room unchanged
and fails identically when repeated. -/
theorem add_member_fail_idempotent_witness :
    (roomC8.add_member longU true ("tokNew".toList) 3).1
        = .error .UsernameTaken ∧
    roomC8.add_member longU true ("tokNew".toList) 3
        = (.error .UsernameTaken, roomC8) :=
  ⟨by decide,
   (add_member_fail_idempotent roomC8 longU true ("tokNew".toList) 3
     (by decide)).1⟩

/-- C4 counterexample: for a member that exists but is already offline,
on_disconnect is not a no-op — it publishes a MemberLeft broadcast and
refreshes the room's last_activity, contradicting the claim. -/
theorem on_disconnect_offline_cex :
    (roomC4.on_disconnect tokC4 5).broadcasts =
      [RoomEvent.Broadcast (WsMessage.MemberLeft ("carol".toList))] ∧
    roomC4.broadcasts = [] ∧
    (roomC4.on_disconnect tokC4 5).last_activity = 5 ∧
    roomC4.last_activity = 0 := by decide

/-- C4 (amended): on_disconnect never errors; for a token absent from the
member table it is a complete no-op; for a present member — online or
already offline — it sets the member offline, refreshes that member's
last_seen and the room's last_activity, publishes a MemberLeft broadcast,
and leaves every other member and the rest of the room unchanged. -/
theorem on_disconnect_spec (r : Room) (token : Str) (now : Nat) :
    (mapLookup r.members token = none → r.on_disconnect token now = r) ∧
    (∀ member, mapLookup r.members token = some member →
      (r.on_disconnect token now).broadcasts =
        r.broadcasts ++ [RoomEvent.Broadcast (WsMessage.MemberLeft member.username)] ∧
      (r.on_disconnect token now).last_activity = now ∧
      mapLookup (r.on_disconnect token now).members token =
        some (member.set_online false now) ∧
      (∀ t2, t2 ≠ token →
        mapLookup (r.on_disconnect token now).members t2 =
          mapLookup r.members t2) ∧
      (r.on_disconnect token now).password = r.password ∧
      (r.on_disconnect token now).id = r.id ∧
      (r.on_disconnect token now).owner_token = r.owner_token) := by
  constructor
  · intro h
    unfold Room.on_disconnect
    rw [h]
  · intro member h
    unfold Room.on_disconnect
    rw [h]
    refine ⟨by simp [Room.touch], by simp [Room.touch], ?_, ?_, by simp [Room.touch],
      by simp [Room.touch], by simp [Room.touch]⟩
    · simp [Room.touch, mapLookup_update_self, h]
    · intro t2 ht2
      simp [Room.touch, mapLookup_update_ne _ _ _ _ ht2]

/-- C1: for every room state in which the member identified by token t is
marked online, force_logout_member(t) returns Some(handle), marks that
member offline, and publishes a MemberLeft{username} broadcast (after the
targeted Kick event); a subsequent login_member(t) on the resulting state
returns Ok with that member's username and publishes a
MemberJoined{username} broadcast that strictly follows the MemberLeft in
the broadcast channel's publication order (witnessed by the final log
decomposition). -/
theorem force_logout_then_login (room : Room) (t : Str) (m : Member)
    (now1 now2 : Nat)
    (hmem : mapLookup room.members t = some m)
    (hon : m.is_online = true) :
    (room.force_logout_member t now1).1 = some () ∧
    mapLookup (room.force_logout_member t now1).2.members t =
      some { m with is_online := false, last_seen := now1 } ∧
    (room.force_logout_member t now1).2.broadcasts =
      room.broadcasts ++
        [RoomEvent.Kick t,
         RoomEvent.Broadcast (WsMessage.MemberLeft m.username)] ∧
    ((room.force_logout_member t now1).2.login_member t now2).1 =
      .ok m.username ∧
    ((room.force_logout_member t now1).2.login_member t now2).2.broadcasts =
      room.broadcasts ++
        [RoomEvent.Kick t,
         RoomEvent.Broadcast (WsMessage.MemberLeft m.username),
         RoomEvent.Broadcast (WsMessage.MemberJoined m.username)] ∧
    (∃ pre suf,
      ((room.force_logout_member t now1).2.login_member t now2).2.broadcasts =
        pre ++ RoomEvent.Broadcast (WsMessage.MemberLeft m.username) ::
          (suf ++ [RoomEvent.Broadcast (WsMessage.MemberJoined m.username)])) := by
  have hfl : room.force_logout_member t now1 =
      (some (), { room with
        members := mapUpdate room.members t (fun mm => mm.set_online false now1),
        broadcasts := room.broadcasts ++
          [RoomEvent.Kick t,
           RoomEvent.Broadcast (WsMessage.MemberLeft m.username)],
        last_activity := now1 }) := by
    unfold Room.force_logout_member
    rw [hmem]
    simp [hon, Room.touch]
  have hlook : mapLookup
      (mapUpdate room.members t (fun mm => mm.set_online false now1)) t =
      some (m.set_online false now1) := by
    rw [mapLookup_update_self, hmem]
    rfl
  have hlm : ((room.force_logout_member t now1).2.login_member t now2) =
      (.ok m.username, { room with
        members := mapUpdate
          (mapUpdate room.members t (fun mm => mm.set_online false now1)) t
          (fun mm => mm.set_online true now2),
        broadcasts := room.broadcasts ++
          [RoomEvent.Kick t,
           RoomEvent.Broadcast (WsMessage.MemberLeft m.username),
           RoomEvent.Broadcast (WsMessage.MemberJoined m.username)],
        last_activity := now2 }) := by
    rw [hfl]
    unfold Room.login_member
    rw [hlook]
    simp [Member.set_online, Room.touch]
  refine ⟨by rw [hfl], ?_, by rw [hfl], by rw [hlm], by rw [hlm], ?_⟩
  · rw [hfl]
    simpa [Member.set_online] using hlook
  · refine ⟨room.broadcasts ++ [RoomEvent.Kick t], [], ?_⟩
    rw [hlm]
    simp

/-- C5 counterexample: RoomId parsing stores the accepted input verbatim
with no case normalization, so the upper-case and lower-case spellings of
the same UUID both parse but yield unequal RoomId values, contradicting
the claim that inputs differing only in case parse to equal values. -/
theorem roomId_case_not_normalized_cex :
    roomIdFromStr upperRid = some upperRid ∧
    roomIdFromStr lowerRid = some lowerRid ∧
    upperRid ≠ lowerRid := by decide

/-- C5 (amended): RoomId parsing accepts, after trimming surrounding
whitespace, exactly the 36-character hyphenated hex strings grouped
8-4-4-4-12 (hex letters of either case accepted), and stores the trimmed
input verbatim — it does not case-normalize, so inputs differing only in
the case of their hex letters parse to distinct RoomId values. -/
theorem roomIdFromStr_spec (s : Str) :
    (∀ r, roomIdFromStr s = some r → r = rustTrim s) ∧
    ((roomIdFromStr s).isSome ↔ uuidShaped (rustTrim s)) := by
  constructor
  · intro r hr
    simp only [roomIdFromStr] at hr
    split_ifs at hr
    all_goals simp_all
  · constructor
    · intro hsome
      simp only [roomIdFromStr] at hsome
      split_ifs at hsome with h1 h2 h3
      · exact absurd hsome (by simp)
      · exact absurd hsome (by simp)
      · have h5 : (splitHyphen (rustTrim s)).length = 5 := not_ne_iff.mp h2
        obtain ⟨p1, p2, p3, p4, p5, hps⟩ :=
          list_length_eq_five (splitHyphen (rustTrim s)) h5
        rw [hps] at h3
        simp only [checkGroups, Bool.and_eq_true, decide_eq_true_eq] at h3
        obtain ⟨⟨l1, a1⟩, ⟨l2, a2⟩, ⟨l3, a3⟩, ⟨l4, a4⟩, ⟨l5, a5⟩, -⟩ := h3
        have hjoin := join_splitHyphen (rustTrim s)
        rw [hps] at hjoin
        simp only [joinParts, List.cons_append] at hjoin
        refine ⟨p1, p2, p3, p4, p5, hjoin.symm, l1, l2, l3, l4, l5, ?_⟩
        intro c hc
        simp only [List.mem_append] at hc
        rcases hc with ((((hc | hc) | hc) | hc) | hc)
        · exact List.all_eq_true.mp a1 c hc
        · exact List.all_eq_true.mp a2 c hc
        · exact List.all_eq_true.mp a3 c hc
        · exact List.all_eq_true.mp a4 c hc
        · exact List.all_eq_true.mp a5 c hc
      · exact absurd hsome (by simp)
    · rintro ⟨g1, g2, g3, g4, g5, ht, l1, l2, l3, l4, l5, hhex⟩
      have hx1 : ∀ c ∈ g1, c ≠ '-' :=
        fun c hc => hex_ne_hyphen (hhex c (by simp [hc]))
      have hx2 : ∀ c ∈ g2, c ≠ '-' :=
        fun c hc => hex_ne_hyphen (hhex c (by simp [hc]))
      have hx3 : ∀ c ∈ g3, c ≠ '-' :=
        fun c hc => hex_ne_hyphen (hhex c (by simp [hc]))
      have hx4 : ∀ c ∈ g4, c ≠ '-' :=
        fun c hc => hex_ne_hyphen (hhex c (by simp [hc]))
      have hx5 : ∀ c ∈ g5, c ≠ '-' :=
        fun c hc => hex_ne_hyphen (hhex c (by simp [hc]))
      have hsplit : splitHyphen (rustTrim s) = [g1, g2, g3, g4, g5] := by
        rw [ht, splitHyphen_cons_group g1 _ hx1, splitHyphen_cons_group g2 _ hx2,
          splitHyphen_cons_group g3 _ hx3, splitHyphen_cons_group g4 _ hx4,
          splitHyphen_no_hyphen g5 hx5]
      have hlen : (rustTrim s).length = 36 := by
        rw [ht]
        simp [List.length_append, l1, l2, l3, l4, l5]
      have ha1 : g1.all isAsciiHexDigit = true :=
        List.all_eq_true.mpr (fun c hc => hhex c (by simp [hc]))
      have ha2 : g2.all isAsciiHexDigit = true :=
        List.all_eq_true.mpr (fun c hc => hhex c (by simp [hc]))
      have ha3 : g3.all isAsciiHexDigit = true :=
        List.all_eq_true.mpr (fun c hc => hhex c (by simp [hc]))
      have ha4 : g4.all isAsciiHexDigit = true :=
        List.all_eq_true.mpr (fun c hc => hhex c (by simp [hc]))
      have ha5 : g5.all isAsciiHexDigit = true :=
        List.all_eq_true.mpr (fun c hc => hhex c (by simp [hc]))
      simp [roomIdFromStr, hlen, hsplit, checkGroups, l1, l2, l3, l4, l5,
        ha1, ha2, ha3, ha4, ha5]

/-- C6: for every valid requested username u (one accepted verbatim by
`Username::from_str`): if u is free, add_member assigns u verbatim;
otherwise the assignment is exactly the spec's skip-search over the
candidates u1..u99 in order — skipping candidates that violate the
length/charset rules and taking the first free valid one (since candidate
length is monotone in the counter, the source's break-on-invalid loop
computes the same result); on success the member is inserted under the
fresh token, and if no candidate works the call returns UsernameTaken and
inserts nothing. -/
theorem add_member_follows_skip_spec (r : Room) (base : Str) (online : Bool)
    (tok : Str) (now : Nat)
    (hvalid : usernameFromStr base = some base) :
    r.generate_unique_username base =
      (if r.is_username_taken base then skipSearch r base (List.range' 1 99)
       else some base) ∧
    (∀ u, r.generate_unique_username base = some u →
      (r.add_member base online tok now).1 = .ok (u, tok) ∧
      mapLookup (r.add_member base online tok now).2.members tok =
        some { username := u, token := tok, last_seen := now,
               is_online := online }) ∧
    (r.generate_unique_username base = none →
      r.add_member base online tok now = (.error .UsernameTaken, r)) := by
  refine ⟨?_, ?_, ?_⟩
  · cases htk : r.is_username_taken base with
    | false => simp [Room.generate_unique_username, htk]
    | true =>
      simp only [Room.generate_unique_username, htk, Bool.not_true,
        Bool.false_eq_true, if_false, if_true]
      exact tryCounters_eq_skipSearch r base hvalid _ range'_facts
        ((List.pairwise_lt_range' 1 99).imp le_of_lt)
  · intro u hu
    constructor
    · simp [Room.add_member, hu]
    · simp [Room.add_member, hu, Room.touch, Member.new, mapLookup_insert_self]
  · intro h
    simp [Room.add_member, h]

/-- C6 witness: a concrete room in which the requested username "ab" is
already taken; the hypotheses hold by computation and the username
selection follows the skip-search specification. -/
theorem add_member_follows_skip_spec_witness :
    usernameFromStr abU = some abU ∧
    Room.generate_unique_username roomC6 abU =
      (if roomC6.is_username_taken abU
       then skipSearch roomC6 abU (List.range' 1 99)
       else some abU) :=
  ⟨by decide,
   (add_member_follows_skip_spec roomC6 abU true ("tokNew2".toList) 0
     (by decide)).1⟩

/-- C1 witness: a concrete room with one online member; its hypotheses
hold by computation and force_logout_member returns Some. -/
theorem force_logout_then_login_witness :
    mapLookup roomC1.members tok1 = some memBob ∧
    memBob.is_online = true ∧
    (roomC1.force_logout_member tok1 1).1 = some () :=
  ⟨by decide, by decide,
   (force_logout_then_login roomC1 tok1 memBob 1 2 (by decide) (by decide)).1⟩

end Inpixly
